import Mathlib

/-!
Shallow embedding of the IDV-RouteMAP normalization engine
(src/normalise_strava.py and src/preprocess_tcx.py).

Python strings are modelled as lists of character codes (ASCII range is
what the data uses); Python floats are modelled as rationals; a Python
`None` / missing value is `Option.none`; code that can raise an exception
returns `Option` with `none` for the exception path.
-/

set_option allowUnsafeReducibility true

attribute [semireducible] Rat.mul Rat.inv Rat.add Rat.sub Rat.div Rat.neg Rat.blt

/-! ## Python string primitives (ASCII model) -/

abbrev PyStr := List Nat

/-- Convert a Lean string literal to the PyStr code-list model. -/
def pys (s : String) : PyStr := s.data.map Char.toNat

def isSpaceCh (c : Nat) : Bool := decide (c = 32 ∨ (9 ≤ c ∧ c ≤ 13))

def isUpperCh (c : Nat) : Bool := decide (65 ≤ c ∧ c ≤ 90)

def isLowerCh (c : Nat) : Bool := decide (97 ≤ c ∧ c ≤ 122)

def isAlphaCh (c : Nat) : Bool := isUpperCh c || isLowerCh c

/-- Python str.lower on one character (ASCII). -/
def toLowerCh (c : Nat) : Nat := if isUpperCh c then c + 32 else c

/-- Python str.upper on one character (ASCII). -/
def toUpperCh (c : Nat) : Nat := if isLowerCh c then c - 32 else c

/-- Python str.lower. -/
def pyLower (s : PyStr) : PyStr := s.map toLowerCh

/-- Python str.strip (whitespace from both ends). -/
def pyStrip (s : PyStr) : PyStr :=
  ((s.dropWhile isSpaceCh).reverse.dropWhile isSpaceCh).reverse

/-- One character of Python str.title: a letter is uppercased when the
previous character was not a letter, lowercased otherwise. -/
def titleCh (prevAlpha : Bool) (c : Nat) : Nat :=
  if isAlphaCh c then (if prevAlpha then toLowerCh c else toUpperCh c) else c

def titleGo (b : Bool) : PyStr → PyStr
  | [] => []
  | c :: rest => titleCh b c :: titleGo (isAlphaCh c) rest

/-- Python str.title. -/
def pyTitle (s : PyStr) : PyStr := titleGo false s

/-! ## normalise_strava.py : normalize_sport -/

/-- normalize_sport from src/normalise_strava.py lines 14-18.
`raw = none` models Python `raw_sport = None`. -/
def normalize_sport (raw : Option PyStr) : PyStr :=
  let s := pyLower (pyStrip (raw.getD []))
  if s = pys "cycling" ∨ s = pys "bike" ∨ s = pys "biking" then pys "Biking"
  else if s = pys "running" then pys "Running"
  else
    match raw with
    | some r => if r = [] then pys "Unknown" else pyTitle r
    | none => pys "Unknown"

/-! ## Numeric primitives: Python round / int over the rational model -/

/-- Floor of a rational, written out so that the kernel can evaluate it. -/
def qfloor (q : ℚ) : ℤ := Int.fdiv q.num q.den

/-- Python round-half-to-even on a rational, to an integer. -/
def pyRound (q : ℚ) : ℤ :=
  let f := qfloor q
  if q - f < 1/2 then f
  else if 1/2 < q - f then f + 1
  else if f % 2 = 0 then f else f + 1

/-- Python round(x, 1). -/
def round1 (q : ℚ) : ℚ := (pyRound (q * 10) : ℚ) / 10

/-- Python int() on a float: truncation toward zero. -/
def pyInt (q : ℚ) : ℤ := if 0 ≤ q then qfloor q else -qfloor (-q)

/-! ## Parsed-TCX data model

Both scripts read the same TrainingCenterDatabase v2 structure; the XML
tree is abstracted to the fields the two parsers touch.  A lap's
TotalTimeSeconds / DistanceMeters / Calories are read as a lap attribute
by normalise_strava.py and as a child-element text by preprocess_tcx.py;
both readings are modelled by the same logical field.  `none` models a
missing attribute/element. -/

/-- One TCX Trackpoint.  `pos` is `some (lat, lon)` when the Position
element with both degree children is present. -/
structure Trackpoint where
  time : Option PyStr
  pos : Option (ℚ × ℚ)
  alt : Option ℚ
  hr : Option ℤ
  cad : Option ℤ
deriving DecidableEq

structure Lap where
  startTime : Option PyStr
  totalTimeSeconds : Option ℚ
  distanceMeters : Option ℚ
  calories : Option ℤ
  avgHr : Option ℤ
  maxHr : Option ℤ
  trackpoints : List Trackpoint
deriving DecidableEq

/-- A parsed TCX document.  `activity = some a` means the Activity element
exists, with `a` its optional Sport attribute.  Trackpoints live under
their laps; a document-order global Trackpoint search is the
concatenation of the per-lap lists. -/
structure TcxDoc where
  activity : Option (Option PyStr)
  laps : List Lap
deriving DecidableEq

/-- Coordinates are (longitude, latitude) pairs, GeoJSON order. -/
abbrev Point := ℚ × ℚ

/-! ## normalise_strava.py : parse_tcx -/

/-- The record produced by parse_tcx / parse_gpx in normalise_strava.py
(these two dicts carry exactly these keys; no cadence key). -/
structure MetaTG where
  activityId : PyStr
  sport : PyStr
  start_time : Option PyStr
  duration_s : Option ℚ
  distance_m : Option ℚ
  calories : Option ℚ
  avg_hr : Option ℚ
  max_hr : Option ℚ
  elevation_gain_m : Option ℚ
  avg_pace_s : Option ℚ
deriving DecidableEq

/-- The trackpoint loop of normalise_strava.py parse_tcx (lines 42-55):
points lacking Position or Time are skipped entirely (before the altitude
handling); for the rest the coordinate is collected and, when an altitude
is present, the strictly positive delta against the previous altitude is
accumulated and the previous altitude is updated regardless of direction.
Returns (points, elevation gain). -/
def NS.tcxWalk (prev : Option ℚ) (g : ℚ) : List Trackpoint → List Point × ℚ
  | [] => ([], g)
  | tp :: rest =>
    match tp.pos, tp.time with
    | some (la, lo), some _ =>
      match tp.alt with
      | some e =>
        let g1 := match prev with
          | some p => if p < e then g + (e - p) else g
          | none => g
        let r := NS.tcxWalk (some e) g1 rest
        ((lo, la) :: r.1, r.2)
      | none =>
        let r := NS.tcxWalk prev g rest
        ((lo, la) :: r.1, r.2)
    | _, _ => NS.tcxWalk prev g rest

/-- parse_tcx from src/normalise_strava.py lines 21-68.  `fname` is the
basename of the path.  `none` models the exception path (no Activity
element, or no laps: `laps[0]` raises IndexError), which the batch loop
catches. -/
def NS.parse_tcx (fname : PyStr) (doc : TcxDoc) : Option (MetaTG × List Point) :=
  match doc.activity with
  | none => none
  | some sportAttr =>
    match doc.laps with
    | [] => none
    | l0 :: _ =>
      let laps := doc.laps
      let total_time : ℚ := (laps.map (fun l => l.totalTimeSeconds.getD 0)).sum
      let distance : ℚ := (laps.map (fun l => l.distanceMeters.getD 0)).sum
      let calories : ℤ := (laps.map (fun l => l.calories.getD 0)).sum
      let avg_hrs : List ℤ := laps.filterMap Lap.avgHr
      let max_hrs : List ℤ := laps.filterMap Lap.maxHr
      let avg_hr : Option ℚ :=
        if avg_hrs = [] then none
        else some ((avg_hrs.map (fun h => (h : ℚ))).sum / avg_hrs.length)
      let walk := NS.tcxWalk none 0 (laps.flatMap Lap.trackpoints)
      let avg_pace_s : Option ℚ :=
        if distance = 0 then none else some (total_time / (distance / 1000))
      some
        ({ activityId := fname
         , sport := normalize_sport (some (sportAttr.getD (pys "Unknown")))
         , start_time := l0.startTime
         , duration_s := some total_time
         , distance_m := some distance
         , calories := some (calories : ℚ)
         , avg_hr :=
             match avg_hr with
             | some a => if a = 0 then none else some (round1 a)
             | none => none
         , max_hr := max_hrs.max?.map (fun z => (z : ℚ))
         , elevation_gain_m := some (round1 walk.2)
         , avg_pace_s :=
             match avg_pace_s with
             | some p => if p = 0 then none else some (round1 p)
             | none => none }, walk.1)

/-! ## normalise_strava.py : parse_gpx -/

structure GpxPoint where
  lon : ℚ
  lat : ℚ
  time : Option PyStr
deriving DecidableEq

/-- A parsed GPX document: tracks, each a list of segments, each an
ordered list of points. -/
abbrev GpxDoc := List (List (List GpxPoint))

/-- parse_gpx from src/normalise_strava.py lines 71-97.  gpxpy is an
external library; its `length_2d` result is an uninterpreted parameter
`len2d` of the embedding (floats from an external computation).  `none`
models the exception path: no first track / segment / point
(IndexError), or a first point with no time (`None.isoformat()` raises).
The filename heuristic tests for the substring "run" in the lowercased
path "raw/" + fname. -/
def NS.parse_gpx (len2d : GpxDoc → ℚ) (fname : PyStr) (doc : GpxDoc) :
    Option (MetaTG × List Point) :=
  match doc with
  | [] => none
  | tr0 :: _ =>
    match tr0 with
    | [] => none
    | seg0 :: _ =>
      match seg0 with
      | [] => none
      | p0 :: _ =>
        match p0.time with
        | none => none
        | some t =>
          let pts : List Point :=
            doc.flatMap (fun tr => tr.flatMap (fun seg => seg.map (fun p => (p.lon, p.lat))))
          let raw_sport :=
            if (pys "run") <:+: pyLower (pys "raw/" ++ fname)
            then pys "Running" else pys "Biking"
          some
            ({ activityId := fname
             , sport := normalize_sport (some raw_sport)
             , start_time := some t
             , duration_s := none
             , distance_m := some (len2d doc)
             , calories := none
             , avg_hr := none
             , max_hr := none
             , elevation_gain_m := none
             , avg_pace_s := none }, pts)

/-! ## normalise_strava.py : parse_fit -/

/-- One FIT "record" message, reduced to the fields the code reads.
Numeric fields are the decoded values; `position_lat`/`position_long`
are raw signed 32-bit semicircle integers. -/
structure FitRecord where
  position_lat : Option ℤ
  position_long : Option ℤ
  timestamp : Option PyStr
  distance : Option ℚ
  heart_rate : Option ℚ
  enhanced_altitude : Option ℚ
  altitude : Option ℚ
  cadence : Option ℚ
deriving DecidableEq

/-- One FIT "session" message, reduced to the fields the code reads. -/
structure FitSession where
  sport : Option PyStr
  total_elapsed_time : Option ℚ
  total_calories : Option ℚ
deriving DecidableEq

/-- The record produced by parse_fit in normalise_strava.py
(initialised to all-None, then filled; includes a cadence key). -/
structure MetaFit where
  activityId : PyStr
  sport : Option PyStr
  start_time : Option PyStr
  duration_s : Option ℚ
  distance_m : Option ℚ
  calories : Option ℚ
  avg_hr : Option ℚ
  max_hr : Option ℚ
  elevation_gain_m : Option ℚ
  avg_pace_s : Option ℚ
  cadence : Option ℚ
deriving DecidableEq

/-- Semicircle-to-degree conversion used for FIT positions:
`value * (180 / 2^31)` (src/normalise_strava.py line 115). -/
def semi2deg (v : ℤ) : ℚ := (v : ℚ) * (180 / 2 ^ 31)

/-- The coordinate a FIT record message contributes: present only when
both raw positions are truthy (present and nonzero), converted to
degrees, in (longitude, latitude) order. -/
def fitCoord (r : FitRecord) : Option Point :=
  match r.position_lat, r.position_long with
  | some la, some lo =>
    if la ≠ 0 ∧ lo ≠ 0 then some (semi2deg lo, semi2deg la) else none
  | _, _ => none

/-- Loop state of the "record"-message loop in parse_fit. -/
structure FitState where
  pts : List Point
  start_time : Option PyStr
  distance_m : Option ℚ
  hrs : List ℚ
  prev : Option ℚ
  gain : ℚ
  cadence : Option ℚ
deriving DecidableEq

/-- One iteration of the "record"-message loop
(src/normalise_strava.py lines 111-129).  All the `if vals.get(...)`
guards are Python truthiness: a present-but-zero value is treated like a
missing one.  `enhanced_altitude or altitude` is Python `or`: the
enhanced value is used only when truthy, otherwise the plain altitude
(which may itself be zero and is then still processed, since the guard
on the result is `is not None`). -/
def fitStep (st : FitState) (r : FitRecord) : FitState :=
  let pts := match fitCoord r with
    | some c => st.pts ++ [c]
    | none => st.pts
  let start_time := match st.start_time with
    | some t => some t
    | none => r.timestamp
  let distance_m := match r.distance with
    | some d => if d = 0 then st.distance_m else some d
    | none => st.distance_m
  let hrs := match r.heart_rate with
    | some h => if h = 0 then st.hrs else st.hrs ++ [h]
    | none => st.hrs
  let ele : Option ℚ := match r.enhanced_altitude with
    | some e => if e = 0 then r.altitude else some e
    | none => r.altitude
  let pg : Option ℚ × ℚ := match ele with
    | some e =>
      (some e,
        match st.prev with
        | some p => if p < e then st.gain + (e - p) else st.gain
        | none => st.gain)
    | none => (st.prev, st.gain)
  let cadence := match r.cadence with
    | some c => if c = 0 then st.cadence else some c
    | none => st.cadence
  ⟨pts, start_time, distance_m, hrs, pg.1, pg.2, cadence⟩

/-- Session summary state: sport, duration, calories. -/
structure SessState where
  sport : Option PyStr
  duration_s : Option ℚ
  calories : Option ℚ
deriving DecidableEq

/-- One iteration of the "session"-message loop
(src/normalise_strava.py lines 131-138): each field is filled from a
truthy message value only when not already truthy (first session wins). -/
def sessStep (st : SessState) (s : FitSession) : SessState :=
  let sport := match st.sport, s.sport with
    | none, some sp => if sp = [] then none else some (normalize_sport (some sp))
    | prev, _ => prev
  let duration_s := match st.duration_s, s.total_elapsed_time with
    | none, some d => if d = 0 then none else some d
    | prev, _ => prev
  let calories := match st.calories, s.total_calories with
    | none, some c => if c = 0 then none else some c
    | prev, _ => prev
  ⟨sport, duration_s, calories⟩

/-- parse_fit from src/normalise_strava.py lines 100-149.  fitparse is an
external library; a file whose binary stream it cannot decode is a
file-level failure handled at the batch level, so this function receives
the already-decoded message lists and is total. -/
def NS.parse_fit (fname : PyStr) (recs : List FitRecord) (sess : List FitSession) :
    MetaFit × List Point :=
  let st := recs.foldl fitStep ⟨[], none, none, [], none, 0, none⟩
  let ss := sess.foldl sessStep ⟨none, none, none⟩
  let avg_hr : Option ℚ :=
    if st.hrs = [] then none else some (round1 (st.hrs.sum / st.hrs.length))
  let max_hr : Option ℚ := if st.hrs = [] then none else st.hrs.max?
  let elev : Option ℚ := if st.gain = 0 then none else some (round1 st.gain)
  let pace : Option ℚ :=
    match st.distance_m, ss.duration_s with
    | some d, some t =>
      if d ≠ 0 ∧ t ≠ 0 then some (round1 (t / (d / 1000))) else none
    | _, _ => none
  ({ activityId := fname
   , sport := ss.sport
   , start_time := st.start_time
   , duration_s := ss.duration_s
   , distance_m := st.distance_m
   , calories := ss.calories
   , avg_hr := avg_hr
   , max_hr := max_hr
   , elevation_gain_m := elev
   , avg_pace_s := pace
   , cadence := st.cadence }, st.pts)

/-! ## normalise_strava.py : load_json_meta -/

/-- A JSON value, reduced to the shapes the data uses. -/
inductive JVal
  | jnull
  | jnum (q : ℚ)
  | jstr (s : PyStr)
deriving DecidableEq

/-- A JSON object: an insertion-ordered association list with unique
keys, as a Python dict. -/
abbrev JObj := List (PyStr × JVal)

/-- Python dict .get: the value at a key, None when missing. -/
def jGet (o : JObj) (k : PyStr) : Option JVal :=
  (o.find? (fun p => p.1 = k)).map Prod.snd

/-- Python dict assignment: replace in place when the key exists,
append otherwise. -/
def dictSet (o : JObj) (k : PyStr) (v : JVal) : JObj :=
  if (jGet o k).isSome then o.map (fun p => if p.1 = k then (p.1, v) else p)
  else o ++ [(k, v)]

/-- Python dict.setdefault(k, None): append (k, null) when missing. -/
def setdefaultNull (o : JObj) (k : PyStr) : JObj :=
  if (jGet o k).isSome then o else o ++ [(k, JVal.jnull)]

/-- load_json_meta from src/normalise_strava.py lines 152-162.  The result
is the meta dict; the code returns `None` for the points, which the batch
loop treats exactly like an empty list.  `none` models the exception
path: a sport value on which `.strip()` raises (a truthy non-string;
a null or missing sport is passed as None to normalize_sport, and a
falsy number reaches the final `raw_sport.title() if raw_sport` as
falsy, yielding "Unknown" without raising). -/
def NS.load_json_meta (o : JObj) : Option JObj :=
  let rawSport : Option (Option PyStr) :=
    match jGet o (pys "sport") with
    | none => some none
    | some JVal.jnull => some none
    | some (JVal.jstr s) => some (some s)
    | some (JVal.jnum q) => if q = 0 then some none else none
  match rawSport with
  | none => none
  | some rs =>
    let m := dictSet o (pys "sport") (JVal.jstr (normalize_sport rs))
    some (List.foldl setdefaultNull m
      [pys "duration_s", pys "distance_m", pys "calories",
       pys "avg_hr", pys "max_hr", pys "elevation_gain_m",
       pys "avg_pace_s", pys "cadence"])

/-! ## normalise_strava.py : the batch loop (lines 164-189) -/

/-- The content of one input file, already dispatched by its recognised
suffix (directory traversal and suffix dispatch are the external driver,
per the spec's scope).  `none` inside a constructor models a file whose
raw bytes the format parser rejects (malformed XML / GPX / JSON,
unreadable or undecompressable FIT stream). -/
inductive NSContent
  | tcxC (d : Option TcxDoc)
  | gpxC (d : Option GpxDoc)
  | fitC (d : Option (List FitRecord × List FitSession))
  | jsonC (d : Option JObj)
  | otherC
deriving DecidableEq

/-- One entry of the metadata index (the per-extractor dict shapes are
kept distinct, as in the code). -/
inductive NSEntry
  | ofTcx (m : MetaTG)
  | ofGpx (m : MetaTG)
  | ofFit (m : MetaFit)
  | ofJson (o : JObj)
deriving DecidableEq

/-- A GeoJSON feature of the merged collection: LineString coordinates
plus the full record as properties. -/
structure NSFeature where
  coordinates : List Point
  properties : NSEntry
deriving DecidableEq

/-- Dispatch one file to its extractor; `none` is the per-file exception
the batch loop catches.  (`otherC` files never reach this: the loop
skips them silently.) -/
def NS.extract (len2d : GpxDoc → ℚ) (fname : PyStr) :
    NSContent → Option (NSEntry × List Point)
  | .tcxC none => none
  | .tcxC (some d) => (NS.parse_tcx fname d).map (fun r => (.ofTcx r.1, r.2))
  | .gpxC none => none
  | .gpxC (some d) => (NS.parse_gpx len2d fname d).map (fun r => (.ofGpx r.1, r.2))
  | .fitC none => none
  | .fitC (some rs) => some ((.ofFit (NS.parse_fit fname rs.1 rs.2).1,
                              (NS.parse_fit fname rs.1 rs.2).2))
  | .jsonC none => none
  | .jsonC (some o) => (NS.load_json_meta o).map (fun m => (.ofJson m, []))
  | .otherC => none

/-- The three artifacts of the batch loop: the metadata index, the
feature collection, and the names in the per-file failure diagnostics
(`print(f"Failed to parse {fname}: ...")`). -/
structure BatchOut where
  index : List NSEntry
  features : List NSFeature
  failures : List PyStr
deriving DecidableEq

/-- The module-level batch loop of src/normalise_strava.py lines 165-185:
unrecognised suffixes are skipped silently; a file whose extraction
raises is logged and skipped; a successful extraction always appends its
record to the index and appends a feature only when the point list is
truthy (non-empty).  Both artifacts are always produced. -/
def NS.runBatch (len2d : GpxDoc → ℚ) : List (PyStr × NSContent) → BatchOut
  | [] => ⟨[], [], []⟩
  | (fname, c) :: rest =>
    match c with
    | .otherC => NS.runBatch len2d rest
    | _ =>
      let out := NS.runBatch len2d rest
      match NS.extract len2d fname c with
      | none => ⟨out.index, out.features, fname :: out.failures⟩
      | some r =>
        ⟨r.1 :: out.index,
         (if r.2 = [] then out.features else ⟨r.2, r.1⟩ :: out.features),
         out.failures⟩

/-! ## preprocess_tcx.py : parse_tcx -/

/-- The record produced by parse_tcx in src/preprocess_tcx.py (the
`coordinates` entry is split off, as main() does before writing).
Totals are plain numbers: the script always sums them with "0" defaults. -/
structure PTMeta where
  activityId : PyStr
  start_time : Option PyStr
  sport : PyStr
  distance_m : ℚ
  duration_s : ℚ
  avg_hr : Option ℤ
  max_hr : Option ℤ
  avg_pace_s : Option ℚ
  elevation_gain_m : Option ℚ
  cadence : Option ℤ
  calories : ℚ
deriving DecidableEq

/-- Coordinates of one lap in preprocess_tcx.py: each trackpoint whose
Position texts are both present contributes (lon, lat). -/
def PT.lapPoints (l : Lap) : List Point :=
  l.trackpoints.filterMap (fun tp => tp.pos.map (fun p => (p.2, p.1)))

/-- Heart-rate samples of one lap: read only at trackpoints that have a
position (the reads are nested under `if lat and lon`). -/
def PT.lapHrs (l : Lap) : List ℤ :=
  l.trackpoints.filterMap (fun tp => if tp.pos.isSome then tp.hr else none)

/-- Altitude samples of one lap, likewise scoped to positioned points. -/
def PT.lapAlts (l : Lap) : List ℚ :=
  l.trackpoints.filterMap (fun tp => if tp.pos.isSome then tp.alt else none)

/-- Cadence samples of one lap, likewise scoped to positioned points. -/
def PT.lapCads (l : Lap) : List ℤ :=
  l.trackpoints.filterMap (fun tp => if tp.pos.isSome then tp.cad else none)

/-- np.sum(np.diff(alts)[np.diff(alts) > 0]): the sum of the strictly
positive consecutive differences. -/
def posDiffSum : List ℚ → ℚ
  | a :: b :: rest => (if a < b then b - a else 0) + posDiffSum (b :: rest)
  | _ => 0

/-- parse_tcx from src/preprocess_tcx.py lines 24-76.  `stem` is the
file path's stem.  The sport attribute is passed through raw (default
"Other"); no exception is possible once the XML parsed, so the result is
total.  int(np.mean(...)) truncates toward zero. -/
def PT.parse_tcx (stem : PyStr) (doc : TcxDoc) : PTMeta × List Point :=
  let sport := match doc.activity with
    | some attr => attr.getD (pys "Other")
    | none => pys "Other"
  let laps := doc.laps
  let start_time := (laps.filterMap Lap.startTime).head?
  let total_dist : ℚ := (laps.map (fun l => l.distanceMeters.getD 0)).sum
  let total_sec : ℚ := (laps.map (fun l => l.totalTimeSeconds.getD 0)).sum
  let total_cal : ℚ := (laps.map (fun l => ((l.calories.getD 0 : ℤ) : ℚ))).sum
  let coords := laps.flatMap PT.lapPoints
  let hrs := laps.flatMap PT.lapHrs
  let alts := laps.flatMap PT.lapAlts
  let cads := laps.flatMap PT.lapCads
  let avg_hr : Option ℤ :=
    if hrs = [] then none
    else some (pyInt ((hrs.map (fun h => (h : ℚ))).sum / hrs.length))
  let max_hr : Option ℤ := hrs.max?
  let elevation_gain : Option ℚ :=
    if 2 ≤ alts.length then some (posDiffSum alts) else none
  let avg_cadence : Option ℤ :=
    if cads = [] then none
    else some (pyInt ((cads.map (fun c => (c : ℚ))).sum / cads.length))
  let avg_pace_s : Option ℚ :=
    if 0 < total_dist then some (total_sec / (total_dist / 1000)) else none
  ({ activityId := stem
   , start_time := start_time
   , sport := sport
   , distance_m := total_dist
   , duration_s := total_sec
   , avg_hr := avg_hr
   , max_hr := max_hr
   , avg_pace_s := avg_pace_s
   , elevation_gain_m := elevation_gain
   , cadence := avg_cadence
   , calories := total_cal }, coords)

/-- A feature written by preprocess_tcx.py: LineString coordinates with
an id-only properties payload. -/
structure PTFeature where
  coordinates : List Point
  activityId : PyStr
deriving DecidableEq

/-- The batch of main() in src/preprocess_tcx.py lines 78-117: each input
is a (stem, parsed document) pair, `none` modelling a file ET.parse
rejects.  There is no try/except: the first exception propagates and the
whole run produces nothing (the merged outputs are written only after
the loop), which `none` models.  A record whose coordinate list has
fewer than 2 points is skipped entirely: neither a feature nor an index
entry is produced for it. -/
def PT.build : List (PyStr × Option TcxDoc) → Option (List PTFeature × List PTMeta)
  | [] => some ([], [])
  | (_, none) :: _ => none
  | (stem, some d) :: rest =>
    match PT.build rest with
    | none => none
    | some out =>
      let r := PT.parse_tcx stem d
      if r.2.length < 2 then some out
      else some (⟨r.2, r.1.activityId⟩ :: out.1, r.1 :: out.2)

/-! ## Spec-side reference functions (for refinement comparisons) -/

/-- Modelled from the spec (section 4.2 step 6): elevation gain keeps a
running previous altitude over the ordered altitude samples, adds only
the strictly positive deltas, and always updates the previous value. -/
def gainSpec (prev : Option ℚ) (g : ℚ) : List ℚ → ℚ
  | [] => g
  | e :: rest =>
    match prev with
    | some p => gainSpec (some e) (if p < e then g + (e - p) else g) rest
    | none => gainSpec (some e) g rest

/-- Modelled from the spec's words for C5: the arithmetic mean of the
per-lap average heart-rate values, absent when no lap reports one. -/
def meanOfLapAvgs (doc : TcxDoc) : Option ℚ :=
  let a := doc.laps.filterMap Lap.avgHr
  if a = [] then none else some ((a.map (fun h => (h : ℚ))).sum / a.length)

/-- Modelled from the spec's words for C5: the maximum of the per-lap
maximum heart-rate values, absent when no lap reports one. -/
def maxOfLapMaxs (doc : TcxDoc) : Option ℤ :=
  (doc.laps.filterMap Lap.maxHr).max?

/-- Modelled from the spec's words for C8: the latest non-absent
distance sample in stream order. -/
def lastNonAbsent (l : List (Option ℚ)) : Option ℚ :=
  (l.filterMap id).getLast?

/-- The latest truthy (present and nonzero) distance sample in stream
order: what the FIT record loop actually keeps. -/
def lastTruthy (l : List (Option ℚ)) : Option ℚ :=
  ((l.filterMap id).filter (fun q => q ≠ 0)).getLast?

/-- The altitude samples that the normalise_strava.py trackpoint walk
processes: altitudes of points that have both Position and Time. -/
def nsAlts (doc : TcxDoc) : List ℚ :=
  ((doc.laps.flatMap Lap.trackpoints).filter
    (fun tp => tp.pos.isSome && tp.time.isSome)).filterMap Trackpoint.alt

/-- The altitude samples preprocess_tcx.py collects: altitudes of
positioned points, time not required. -/
def ptAlts (doc : TcxDoc) : List ℚ := doc.laps.flatMap PT.lapAlts

/-- The heart-rate samples preprocess_tcx.py collects. -/
def ptHrs (doc : TcxDoc) : List ℤ := doc.laps.flatMap PT.lapHrs

/-! ## Concrete documents used by counterexamples and witnesses -/

/-- A lap reporting nothing at all. -/
def emptyLap : Lap := ⟨none, none, none, none, none, none, []⟩

/-- A TCX document with an Activity element (no Sport attribute) and one
lap that reports nothing: nothing in it is derivable from the source. -/
def docNothing : TcxDoc := ⟨some none, [emptyLap]⟩

/-- A trackpoint at latitude 5, longitude 6 with a time and no other data. -/
def tpSingle : Trackpoint := ⟨some (pys "t0"), some (5, 6), none, none, none⟩

/-- A TCX document whose track has exactly one coordinate. -/
def docOnePoint : TcxDoc :=
  ⟨some (some (pys "Running")), [{ emptyLap with trackpoints := [tpSingle] }]⟩

/-- A TCX document with a lap-level average heart rate of 100 but
trackpoint samples 90 and 91. -/
def docHr : TcxDoc :=
  ⟨some none,
   [{ emptyLap with
      avgHr := some 100
      maxHr := some 100
      trackpoints :=
        [⟨some (pys "t0"), some (1, 2), none, some 90, none⟩,
         ⟨some (pys "t1"), some (1, 2), none, some 91, none⟩] }]⟩

/-- A TCX document whose positioned points carry altitudes 0 and 0.26. -/
def docAlt : TcxDoc :=
  ⟨some none,
   [{ emptyLap with
      trackpoints :=
        [⟨some (pys "t0"), some (1, 2), some 0, none, none⟩,
         ⟨some (pys "t1"), some (1, 2), some (13/50), none, none⟩] }]⟩

/-- A TCX document with altitude sequence 100, 105, 102, 110 on
positioned, timed points. -/
def docGain : TcxDoc :=
  ⟨some none,
   [{ emptyLap with
      trackpoints :=
        [⟨some (pys "t0"), some (1, 2), some 100, none, none⟩,
         ⟨some (pys "t1"), some (1, 2), some 105, none, none⟩,
         ⟨some (pys "t2"), some (1, 2), some 102, none, none⟩,
         ⟨some (pys "t3"), some (1, 2), some 110, none, none⟩] }]⟩

/-- A TCX document reporting 100 s over 3000 m. -/
def docPaceThird : TcxDoc :=
  ⟨some none, [{ emptyLap with totalTimeSeconds := some 100, distanceMeters := some 3000 }]⟩

/-- A TCX document reporting 3600 s over 10000 m. -/
def docPace360 : TcxDoc :=
  ⟨some none, [{ emptyLap with totalTimeSeconds := some 3600, distanceMeters := some 10000 }]⟩

/-- A FIT record message reporting only a distance. -/
def fitDist (d : ℚ) : FitRecord := ⟨none, none, none, some d, none, none, none, none⟩

/-- A FIT record message reporting only a raw position. -/
def fitPos (la lo : ℤ) : FitRecord := ⟨some la, some lo, none, none, none, none, none, none⟩

/-! ## Helper lemmas: ASCII case functions -/

theorem toLowerCh_toLowerCh (c : Nat) : toLowerCh (toLowerCh c) = toLowerCh c := by
  simp only [toLowerCh, isUpperCh, decide_eq_true_eq]
  split_ifs <;> omega

theorem toLowerCh_toUpperCh (c : Nat) : toLowerCh (toUpperCh c) = toLowerCh c := by
  simp only [toLowerCh, toUpperCh, isUpperCh, isLowerCh, decide_eq_true_eq]
  split_ifs <;> omega

theorem toUpperCh_toUpperCh (c : Nat) : toUpperCh (toUpperCh c) = toUpperCh c := by
  simp only [toUpperCh, isLowerCh, decide_eq_true_eq]
  split_ifs <;> omega

theorem isAlphaCh_toLowerCh (c : Nat) : isAlphaCh (toLowerCh c) = isAlphaCh c := by
  simp only [isAlphaCh, toLowerCh, isUpperCh, isLowerCh, ← Bool.decide_or,
    decide_eq_true_eq]
  split_ifs <;> (apply decide_eq_decide.mpr; omega)

theorem isAlphaCh_toUpperCh (c : Nat) : isAlphaCh (toUpperCh c) = isAlphaCh c := by
  simp only [isAlphaCh, toUpperCh, isUpperCh, isLowerCh, ← Bool.decide_or,
    decide_eq_true_eq]
  split_ifs <;> (apply decide_eq_decide.mpr; omega)

theorem isAlphaCh_titleCh (b : Bool) (c : Nat) :
    isAlphaCh (titleCh b c) = isAlphaCh c := by
  simp only [titleCh]
  split_ifs <;> simp [isAlphaCh_toLowerCh, isAlphaCh_toUpperCh]

theorem titleCh_titleCh (b : Bool) (c : Nat) :
    titleCh b (titleCh b c) = titleCh b c := by
  by_cases ha : isAlphaCh c = true
  · cases b <;>
      simp [titleCh, ha, isAlphaCh_toLowerCh, isAlphaCh_toUpperCh,
        toLowerCh_toLowerCh, toUpperCh_toUpperCh]
  · simp [titleCh, ha]

theorem isSpaceCh_toLowerCh (c : Nat) : isSpaceCh (toLowerCh c) = isSpaceCh c := by
  simp only [isSpaceCh, toLowerCh, isUpperCh, decide_eq_true_eq]
  split_ifs <;> (apply decide_eq_decide.mpr; omega)

theorem toLowerCh_titleCh (b : Bool) (c : Nat) :
    toLowerCh (titleCh b c) = toLowerCh c := by
  simp only [titleCh]
  split_ifs <;> simp [toLowerCh_toLowerCh, toLowerCh_toUpperCh]

/-! ## Helper lemmas: lower / strip / title -/

theorem map_toLowerCh_titleGo (b : Bool) (s : PyStr) :
    (titleGo b s).map toLowerCh = s.map toLowerCh := by
  induction s generalizing b with
  | nil => rfl
  | cons c rest ih =>
    simp [titleGo, List.map_cons, toLowerCh_titleCh, isAlphaCh_titleCh, ih]

theorem pyLower_pyTitle (s : PyStr) : pyLower (pyTitle s) = pyLower s :=
  map_toLowerCh_titleGo false s

theorem titleGo_titleGo (b : Bool) (s : PyStr) : titleGo b (titleGo b s) = titleGo b s := by
  induction s generalizing b with
  | nil => rfl
  | cons c rest ih =>
    simp only [titleGo, isAlphaCh_titleCh, titleCh_titleCh]
    exact congrArg _ (ih (isAlphaCh c))

theorem pyTitle_pyTitle (s : PyStr) : pyTitle (pyTitle s) = pyTitle s :=
  titleGo_titleGo false s

theorem titleGo_eq_nil_iff (b : Bool) (s : PyStr) : titleGo b s = [] ↔ s = [] := by
  cases s <;> simp [titleGo]

theorem dropWhile_isSpaceCh_map_toLowerCh (s : PyStr) :
    (s.map toLowerCh).dropWhile isSpaceCh = (s.dropWhile isSpaceCh).map toLowerCh := by
  induction s with
  | nil => rfl
  | cons c rest ih =>
    by_cases h : isSpaceCh c = true
    · simp [List.dropWhile_cons, isSpaceCh_toLowerCh, h, ih]
    · simp [List.dropWhile_cons, isSpaceCh_toLowerCh, h]

theorem pyLower_pyStrip (s : PyStr) : pyLower (pyStrip s) = pyStrip (pyLower s) := by
  simp only [pyStrip, pyLower]
  rw [dropWhile_isSpaceCh_map_toLowerCh, ← List.map_reverse,
    dropWhile_isSpaceCh_map_toLowerCh, ← List.map_reverse]

theorem pyLower_pyStrip_pyTitle (s : PyStr) :
    pyLower (pyStrip (pyTitle s)) = pyLower (pyStrip s) := by
  rw [pyLower_pyStrip, pyLower_pyTitle, ← pyLower_pyStrip]

theorem dropWhile_eq_self_of_false {p : Nat → Bool} :
    ∀ l : PyStr, (∀ c ∈ l, p c = false) → l.dropWhile p = l
  | [], _ => rfl
  | a :: l, h => by simp [List.dropWhile_cons, h a (by simp)]

theorem pyStrip_eq_self_of_no_space (s : PyStr) (h : ∀ c ∈ s, isSpaceCh c = false) :
    pyStrip s = s := by
  simp only [pyStrip]
  rw [dropWhile_eq_self_of_false s h,
    dropWhile_eq_self_of_false s.reverse (fun c hc => h c (List.mem_reverse.mp hc)),
    List.reverse_reverse]

theorem pyTitle_eq_nil_iff (s : PyStr) : pyTitle s = [] ↔ s = [] :=
  titleGo_eq_nil_iff false s

/-! ## Helper lemmas: normalize_sport -/

theorem normalize_sport_some (r : PyStr) :
    normalize_sport (some r) =
      (if pyLower (pyStrip r) = pys "cycling" ∨ pyLower (pyStrip r) = pys "bike" ∨
          pyLower (pyStrip r) = pys "biking"
       then pys "Biking"
       else if pyLower (pyStrip r) = pys "running" then pys "Running"
       else if r = [] then pys "Unknown" else pyTitle r) := rfl

theorem no_space_of_pyLower_eq (s t : PyStr) (ht : pyLower s = t)
    (h : ∀ c ∈ t, isSpaceCh c = false) : ∀ c ∈ s, isSpaceCh c = false := by
  intro c hc
  rw [← isSpaceCh_toLowerCh c]
  exact h _ (ht ▸ List.mem_map_of_mem toLowerCh hc)

theorem normalize_sport_idem (x : Option PyStr) :
    normalize_sport (some (normalize_sport x)) = normalize_sport x := by
  cases x with
  | none => decide
  | some r =>
    rw [normalize_sport_some r]
    split_ifs with h1 h2 h3
    · decide
    · decide
    · decide
    · rw [normalize_sport_some (pyTitle r), pyLower_pyStrip_pyTitle, if_neg h1,
        if_neg h2, if_neg (fun hh => h3 ((pyTitle_eq_nil_iff r).mp hh)),
        pyTitle_pyTitle]

/-! ## Helper lemmas: FIT record loop -/

theorem getLast?_cons_elim {α : Type} (a : α) (xs : List α) :
    (a :: xs).getLast? = (xs.getLast?).elim (some a) some := by
  cases xs with
  | nil => rfl
  | cons y ys =>
    rw [List.getLast?_cons_cons]
    cases h : (y :: ys).getLast? with
    | none => exact absurd (List.getLast?_eq_none_iff.mp h) (by simp)
    | some z => rfl

theorem lastTruthy_cons_none (l : List (Option ℚ)) :
    lastTruthy (none :: l) = lastTruthy l := by
  simp [lastTruthy]

theorem lastTruthy_cons_zero (l : List (Option ℚ)) :
    lastTruthy (some 0 :: l) = lastTruthy l := by
  simp [lastTruthy]

theorem lastTruthy_cons_nonzero (d : ℚ) (hd : d ≠ 0) (l : List (Option ℚ)) :
    lastTruthy (some d :: l) = (lastTruthy l).elim (some d) some := by
  simp only [lastTruthy, List.filterMap_cons, id_eq, List.filter_cons]
  rw [if_pos (by simpa using hd)]
  exact getLast?_cons_elim d _

theorem foldl_fitStep_pts (recs : List FitRecord) (st : FitState) :
    (recs.foldl fitStep st).pts = st.pts ++ recs.filterMap fitCoord := by
  induction recs generalizing st with
  | nil => simp
  | cons r rs ih =>
    rw [List.foldl_cons, ih]
    cases h : fitCoord r <;> simp [fitStep, h, List.filterMap_cons]

theorem foldl_fitStep_distance (recs : List FitRecord) (st : FitState) :
    (recs.foldl fitStep st).distance_m =
      (lastTruthy (recs.map FitRecord.distance)).elim st.distance_m some := by
  induction recs generalizing st with
  | nil => rfl
  | cons r rs ih =>
    rw [List.foldl_cons, ih, List.map_cons]
    cases hd : r.distance with
    | none =>
      rw [lastTruthy_cons_none]
      have : (fitStep st r).distance_m = st.distance_m := by simp [fitStep, hd]
      rw [this]
    | some d =>
      by_cases h0 : d = 0
      · subst h0
        rw [lastTruthy_cons_zero]
        have : (fitStep st r).distance_m = st.distance_m := by simp [fitStep, hd]
        rw [this]
      · rw [lastTruthy_cons_nonzero d h0]
        have hst : (fitStep st r).distance_m = some d := by simp [fitStep, hd, h0]
        rw [hst]
        cases hl : lastTruthy (rs.map FitRecord.distance) <;> rfl

/-! ## Helper lemmas: elevation-gain folds -/

theorem tcxWalk_gain (tps : List Trackpoint) : ∀ (prev : Option ℚ) (g : ℚ),
    (NS.tcxWalk prev g tps).2 =
      gainSpec prev g
        ((tps.filter (fun tp => tp.pos.isSome && tp.time.isSome)).filterMap Trackpoint.alt) := by
  induction tps with
  | nil => intro prev g; rfl
  | cons tp rest ih =>
    intro prev g
    cases hp : tp.pos with
    | none => simp [NS.tcxWalk, hp, List.filter_cons, ih]
    | some ll =>
      obtain ⟨la, lo⟩ := ll
      cases ht : tp.time with
      | none => simp [NS.tcxWalk, hp, ht, List.filter_cons, ih]
      | some t =>
        cases ha : tp.alt with
        | none =>
          simp [NS.tcxWalk, hp, ht, ha, List.filter_cons, List.filterMap_cons, ih]
        | some e =>
          cases prev with
          | none =>
            simp [NS.tcxWalk, hp, ht, ha, List.filter_cons, List.filterMap_cons,
              ih, gainSpec]
          | some p =>
            simp [NS.tcxWalk, hp, ht, ha, List.filter_cons, List.filterMap_cons,
              ih, gainSpec]

theorem gainSpec_some (l : List ℚ) : ∀ (p g : ℚ),
    gainSpec (some p) g l = g + posDiffSum (p :: l) := by
  induction l with
  | nil => intro p g; simp [gainSpec, posDiffSum]
  | cons e rest ih =>
    intro p g
    rw [gainSpec, ih e]
    by_cases h : p < e
    · rw [if_pos h]
      show g + (e - p) + posDiffSum (e :: rest) =
        g + ((if p < e then e - p else 0) + posDiffSum (e :: rest))
      rw [if_pos h]; ring
    · rw [if_neg h]
      show g + posDiffSum (e :: rest) =
        g + ((if p < e then e - p else 0) + posDiffSum (e :: rest))
      rw [if_neg h]; ring

theorem posDiffSum_eq_gainSpec (l : List ℚ) : posDiffSum l = gainSpec none 0 l := by
  cases l with
  | nil => rfl
  | cons a rest =>
    rw [gainSpec, gainSpec_some rest a 0, zero_add]

/-! ## Helper lemmas: normalise_strava batch loop -/

theorem runBatch_cons_other (len2d : GpxDoc → ℚ) (fname : PyStr)
    (rest : List (PyStr × NSContent)) :
    NS.runBatch len2d ((fname, NSContent.otherC) :: rest) = NS.runBatch len2d rest := rfl

theorem runBatch_cons_not_other (len2d : GpxDoc → ℚ) (fname : PyStr) (c : NSContent)
    (rest : List (PyStr × NSContent)) (hc : c ≠ NSContent.otherC) :
    NS.runBatch len2d ((fname, c) :: rest) =
      (match NS.extract len2d fname c with
       | none =>
         ⟨(NS.runBatch len2d rest).index, (NS.runBatch len2d rest).features,
          fname :: (NS.runBatch len2d rest).failures⟩
       | some r =>
         ⟨r.1 :: (NS.runBatch len2d rest).index,
          (if r.2 = [] then (NS.runBatch len2d rest).features
           else ⟨r.2, r.1⟩ :: (NS.runBatch len2d rest).features),
          (NS.runBatch len2d rest).failures⟩) := by
  cases c
  case otherC => exact absurd rfl hc
  all_goals rfl

theorem runBatch_index (len2d : GpxDoc → ℚ) (files : List (PyStr × NSContent)) :
    (NS.runBatch len2d files).index =
      files.filterMap (fun fc => (NS.extract len2d fc.1 fc.2).map Prod.fst) := by
  induction files with
  | nil => rfl
  | cons fc rest ih =>
    obtain ⟨fname, c⟩ := fc
    by_cases hc : c = NSContent.otherC
    · subst hc
      rw [runBatch_cons_other]
      simpa [NS.extract] using ih
    · rw [runBatch_cons_not_other len2d fname c rest hc]
      cases h : NS.extract len2d fname c <;> simp [h, ih, List.filterMap_cons]

theorem runBatch_features (len2d : GpxDoc → ℚ) (files : List (PyStr × NSContent)) :
    (NS.runBatch len2d files).features =
      files.filterMap (fun fc => (NS.extract len2d fc.1 fc.2).bind
        (fun r => if r.2 = [] then none else some ⟨r.2, r.1⟩)) := by
  induction files with
  | nil => rfl
  | cons fc rest ih =>
    obtain ⟨fname, c⟩ := fc
    by_cases hc : c = NSContent.otherC
    · subst hc
      rw [runBatch_cons_other]
      simpa [NS.extract] using ih
    · rw [runBatch_cons_not_other len2d fname c rest hc]
      cases h : NS.extract len2d fname c with
      | none => simp [h, ih, List.filterMap_cons]
      | some r =>
        by_cases hp : r.2 = [] <;> simp [h, hp, ih, List.filterMap_cons]

theorem runBatch_append (len2d : GpxDoc → ℚ) (l1 l2 : List (PyStr × NSContent)) :
    NS.runBatch len2d (l1 ++ l2) =
      ⟨(NS.runBatch len2d l1).index ++ (NS.runBatch len2d l2).index,
       (NS.runBatch len2d l1).features ++ (NS.runBatch len2d l2).features,
       (NS.runBatch len2d l1).failures ++ (NS.runBatch len2d l2).failures⟩ := by
  induction l1 with
  | nil => rfl
  | cons fc rest ih =>
    obtain ⟨fname, c⟩ := fc
    by_cases hc : c = NSContent.otherC
    · subst hc
      rw [List.cons_append, runBatch_cons_other, runBatch_cons_other, ih]
    · rw [List.cons_append, runBatch_cons_not_other len2d fname c _ hc,
        runBatch_cons_not_other len2d fname c rest hc, ih]
      cases h : NS.extract len2d fname c with
      | none => rfl
      | some r =>
        by_cases hp : r.2 = [] <;> simp [hp]

/-! ## Helper lemmas: preprocess_tcx batch -/

theorem PT_build_eq_none_iff (files : List (PyStr × Option TcxDoc)) :
    PT.build files = none ↔ ∃ p ∈ files, p.2 = none := by
  induction files with
  | nil => simp [PT.build]
  | cons fd rest ih =>
    obtain ⟨stem, d⟩ := fd
    cases d with
    | none => simp [PT.build]
    | some doc =>
      have hstep : PT.build ((stem, some doc) :: rest) = none ↔ PT.build rest = none := by
        cases h : PT.build rest with
        | none => simp [PT.build, h]
        | some out =>
          simp only [PT.build, h]
          split <;> simp
      rw [hstep, ih]
      simp

theorem PT_build_index (files : List (PyStr × Option TcxDoc))
    (feats : List PTFeature) (idx : List PTMeta)
    (h : PT.build files = some (feats, idx)) :
    idx = files.filterMap (fun fd =>
      match fd.2 with
      | some d =>
        if (PT.parse_tcx fd.1 d).2.length < 2 then none
        else some (PT.parse_tcx fd.1 d).1
      | none => none) := by
  induction files generalizing feats idx with
  | nil =>
    simp only [PT.build, Option.some.injEq, Prod.mk.injEq] at h
    simp [← h.2]
  | cons fd rest ih =>
    obtain ⟨stem, d⟩ := fd
    cases d with
    | none => simp [PT.build] at h
    | some doc =>
      cases hb : PT.build rest with
      | none => simp [PT.build, hb] at h
      | some out =>
        obtain ⟨f', i'⟩ := out
        have hi := ih f' i' hb
        simp only [PT.build, hb] at h
        by_cases hlen : (PT.parse_tcx stem doc).2.length < 2
        · rw [if_pos hlen] at h
          obtain ⟨hf, hidx⟩ := Prod.mk.injEq .. ▸ Option.some.injEq .. ▸ h
          simp only [List.filterMap_cons, if_pos hlen]
          exact hidx ▸ hi
        · rw [if_neg hlen] at h
          obtain ⟨hf, hidx⟩ := Prod.mk.injEq .. ▸ Option.some.injEq .. ▸ h
          simp only [List.filterMap_cons, if_neg hlen]
          exact hidx ▸ (by rw [hi])

/-! ## Helper lemmas: the shape of a successful normalise_strava TCX parse -/

theorem matchOptBranch (c : Prop) [Decidable c] (v : ℚ) (f : ℚ → Option ℚ) :
    (match (if c then none else some v) with
     | some a => f a
     | none => none) = if c then none else f v := by
  split_ifs <;> rfl

theorem NS_parse_tcx_shape (fname : PyStr) (doc : TcxDoc) (m : MetaTG) (pts : List Point)
    (h : NS.parse_tcx fname doc = some (m, pts)) :
    m.duration_s = some ((doc.laps.map (fun l => l.totalTimeSeconds.getD 0)).sum)
    ∧ m.distance_m = some ((doc.laps.map (fun l => l.distanceMeters.getD 0)).sum)
    ∧ m.calories = some (((doc.laps.map (fun l => l.calories.getD 0)).sum : ℤ) : ℚ)
    ∧ m.avg_hr = (meanOfLapAvgs doc).bind (fun a => if a = 0 then none else some (round1 a))
    ∧ m.max_hr = (maxOfLapMaxs doc).map (fun z => (z : ℚ))
    ∧ m.elevation_gain_m = some (round1 (gainSpec none 0 (nsAlts doc)))
    ∧ m.avg_pace_s =
        (if (doc.laps.map (fun l => l.distanceMeters.getD 0)).sum = 0
            ∨ (doc.laps.map (fun l => l.totalTimeSeconds.getD 0)).sum = 0
         then none
         else some (round1 ((doc.laps.map (fun l => l.totalTimeSeconds.getD 0)).sum /
           ((doc.laps.map (fun l => l.distanceMeters.getD 0)).sum / 1000)))) := by
  cases hA : doc.activity with
  | none => rw [NS.parse_tcx, hA] at h; exact absurd h (by simp)
  | some sa =>
    cases hL : doc.laps with
    | nil => rw [NS.parse_tcx, hA, hL] at h; exact absurd h (by simp)
    | cons l0 ls =>
      rw [NS.parse_tcx, hA, hL] at h
      simp only [Option.some.injEq, Prod.mk.injEq] at h
      obtain ⟨hm, -⟩ := h
      subst hm
      refine ⟨rfl, rfl, rfl, ?_, ?_, ?_, ?_⟩
      · simp only [meanOfLapAvgs, hL]
        by_cases hE : (l0 :: ls).filterMap Lap.avgHr = []
        · rw [if_pos hE]
          rfl
        · rw [if_neg hE]
          rfl
      · rw [maxOfLapMaxs, hL]
      · rw [nsAlts, hL, tcxWalk_gain]
      · rw [matchOptBranch, matchOptBranch]
        by_cases hd : (List.map (fun l => l.distanceMeters.getD 0) (l0 :: ls)).sum = 0
        · rw [if_pos hd, if_pos (Or.inl hd)]
        · rw [if_neg hd]
          by_cases ht : (List.map (fun l => l.totalTimeSeconds.getD 0) (l0 :: ls)).sum = 0
          · have hzero : (List.map (fun l => l.totalTimeSeconds.getD 0) (l0 :: ls)).sum /
                ((List.map (fun l => l.distanceMeters.getD 0) (l0 :: ls)).sum / 1000) = 0 := by
              rw [ht, zero_div]
            rw [if_pos hzero, if_pos (Or.inr ht)]
          · have h3 : ¬((List.map (fun l => l.distanceMeters.getD 0) (l0 :: ls)).sum = 0 ∨
                (List.map (fun l => l.totalTimeSeconds.getD 0) (l0 :: ls)).sum = 0) := by
              push_neg
              exact ⟨hd, ht⟩
            have h4 : (List.map (fun l => l.totalTimeSeconds.getD 0) (l0 :: ls)).sum /
                ((List.map (fun l => l.distanceMeters.getD 0) (l0 :: ls)).sum / 1000) ≠ 0 := by
              rw [div_ne_zero_iff, div_ne_zero_iff]
              exact ⟨ht, hd, by norm_num⟩
            rw [if_neg h4, if_neg h3]

/-! ## Claim theorems -/

/-- C10: normalize_sport is a pure, case-insensitive, idempotent function:
any casing of "cycling"/"bike"/"biking" maps to "Biking", any casing of
"running" maps to "Running", empty or absent input maps to "Unknown", any
other non-empty input maps to its title-cased form, and
normalize(normalize(x)) = normalize(x); in particular
normalize("BIKING") = "Biking", normalize("") = "Unknown",
normalize("Swimming") = "Swimming". -/
theorem C10_normalize_sport_canonical :
    (∀ s : PyStr, pyLower s = pys "cycling" ∨ pyLower s = pys "bike" ∨
        pyLower s = pys "biking" → normalize_sport (some s) = pys "Biking")
    ∧ (∀ s : PyStr, pyLower s = pys "running" → normalize_sport (some s) = pys "Running")
    ∧ normalize_sport (some (pys "")) = pys "Unknown"
    ∧ normalize_sport none = pys "Unknown"
    ∧ (∀ s : PyStr, s ≠ [] →
        pyLower (pyStrip s) ≠ pys "cycling" → pyLower (pyStrip s) ≠ pys "bike" →
        pyLower (pyStrip s) ≠ pys "biking" → pyLower (pyStrip s) ≠ pys "running" →
        normalize_sport (some s) = pyTitle s)
    ∧ (∀ x : Option PyStr, normalize_sport (some (normalize_sport x)) = normalize_sport x)
    ∧ normalize_sport (some (pys "BIKING")) = pys "Biking"
    ∧ normalize_sport (some (pys "Biking")) = pys "Biking"
    ∧ normalize_sport (some (pys "Swimming")) = pys "Swimming" := by
  refine ⟨?_, ?_, by decide, by decide, ?_, normalize_sport_idem, by decide, by decide,
    by decide⟩
  · intro s h
    have hns : ∀ c ∈ s, isSpaceCh c = false := by
      rcases h with h | h | h <;> exact no_space_of_pyLower_eq s _ h (by decide)
    have hstrip := pyStrip_eq_self_of_no_space s hns
    rw [normalize_sport_some, hstrip]
    rcases h with h | h | h <;> rw [h] <;> rw [if_pos (by decide)]
  · intro s h
    have hns : ∀ c ∈ s, isSpaceCh c = false :=
      no_space_of_pyLower_eq s _ h (by decide)
    have hstrip := pyStrip_eq_self_of_no_space s hns
    rw [normalize_sport_some, hstrip, h, if_neg (by decide), if_pos (by decide)]
  · intro s h0 h1 h2 h3 h4
    rw [normalize_sport_some, if_neg (not_or.mpr ⟨h1, not_or.mpr ⟨h2, h3⟩⟩),
      if_neg h4, if_neg h0]

/-- C10 witness: the canonical-table, title-case and idempotence clauses
of the theorem applied at concrete inputs. -/
theorem C10_witness :
    normalize_sport (some (pys "CyCling")) = pys "Biking"
    ∧ normalize_sport (some (pys "RUNNING")) = pys "Running"
    ∧ normalize_sport (some (pys " swim club ")) = pyTitle (pys " swim club ")
    ∧ normalize_sport (some (normalize_sport (some (pys "trail RUN")))) =
        normalize_sport (some (pys "trail RUN")) :=
  ⟨C10_normalize_sport_canonical.1 (pys "CyCling") (Or.inl (by decide)),
   C10_normalize_sport_canonical.2.1 (pys "RUNNING") (by decide),
   C10_normalize_sport_canonical.2.2.2.2.1 (pys " swim club ") (by decide) (by decide)
     (by decide) (by decide) (by decide),
   C10_normalize_sport_canonical.2.2.2.2.2.1 (some (pys "trail RUN"))⟩

/-- C9: the FIT extractor's coordinate stream is exactly the record
messages with truthy raw positions, each converted to degrees by
multiplying by 180 / 2^31 (fitCoord applies semi2deg to both axes); a
raw value of 2^30 semicircles converts to exactly 90 degrees. -/
theorem C9_semicircle_conversion :
    (∀ (fname : PyStr) (recs : List FitRecord) (sess : List FitSession),
      (NS.parse_fit fname recs sess).2 = recs.filterMap fitCoord)
    ∧ (∀ (r : FitRecord) (la lo : ℤ), r.position_lat = some la →
        r.position_long = some lo → la ≠ 0 → lo ≠ 0 →
        fitCoord r = some ((lo : ℚ) * (180 / 2 ^ 31), (la : ℚ) * (180 / 2 ^ 31)))
    ∧ semi2deg (2 ^ 30) = 90
    ∧ (NS.parse_fit (pys "a.fit") [fitPos (2 ^ 30) (2 ^ 30)] []).2 = [(90, 90)] := by
  refine ⟨?_, ?_, by decide, by decide⟩
  · intro fname recs sess
    show (recs.foldl fitStep ⟨[], none, none, [], none, 0, none⟩).pts = _
    rw [foldl_fitStep_pts]
    rfl
  · intro r la lo h1 h2 h3 h4
    simp [fitCoord, h1, h2, h3, h4, semi2deg]

/-- C9 witness: the conversion clause applied at a concrete record whose
raw latitude and longitude are both 2^30 semicircles. -/
theorem C9_witness :
    fitCoord (fitPos (2 ^ 30) (2 ^ 30)) =
      some (((2 ^ 30 : ℤ) : ℚ) * (180 / 2 ^ 31), ((2 ^ 30 : ℤ) : ℚ) * (180 / 2 ^ 31)) :=
  C9_semicircle_conversion.2.1 (fitPos (2 ^ 30) (2 ^ 30)) (2 ^ 30) (2 ^ 30)
    rfl rfl (by decide) (by decide)

/-- C8 counterexample: with record distances [100, 0] the code keeps 100
(a zero sample is falsy and is skipped), while the latest non-absent
distance value is 0 — so distance_m is not the latest non-absent value. -/
theorem C8_counterexample :
    (NS.parse_fit (pys "a.fit") [fitDist 100, fitDist 0] []).1.distance_m = some 100
    ∧ lastNonAbsent ([fitDist 100, fitDist 0].map FitRecord.distance) = some 0
    ∧ some (100 : ℚ) ≠ some (0 : ℚ) := by
  refine ⟨by decide, by decide, by decide⟩

/-- C8 amended: distance_m equals the latest truthy (present and
nonzero) distance sample among the record messages in stream order
(overwrite semantics, not accumulation); records [100, 250, 200] yield
200. -/
theorem C8_distance_last_sample_wins :
    (∀ (fname : PyStr) (recs : List FitRecord) (sess : List FitSession),
      (NS.parse_fit fname recs sess).1.distance_m =
        lastTruthy (recs.map FitRecord.distance))
    ∧ (NS.parse_fit (pys "a.fit") [fitDist 100, fitDist 250, fitDist 200] []).1.distance_m
        = some 200 := by
  refine ⟨?_, by decide⟩
  intro fname recs sess
  show (recs.foldl fitStep ⟨[], none, none, [], none, 0, none⟩).distance_m = _
  rw [foldl_fitStep_distance]
  cases lastTruthy (recs.map FitRecord.distance) <;> rfl

/-! ## Helper lemmas: JSON dict operations -/

theorem jGet_append (o1 o2 : JObj) (k : PyStr) :
    jGet (o1 ++ o2) k = (jGet o1 k).or (jGet o2 k) := by
  simp only [jGet, List.find?_append]
  cases o1.find? (fun p => decide (p.1 = k)) <;> simp

theorem jGet_singleton_ne (k k' : PyStr) (v : JVal) (h : k' ≠ k) :
    jGet [(k, v)] k' = none := by
  simp [jGet, List.find?, h.symm]

theorem jGet_singleton_self (k : PyStr) (v : JVal) : jGet [(k, v)] k = some v := by
  simp [jGet, List.find?]

theorem jGet_cons (k1 : PyStr) (v1 : JVal) (rest : JObj) (k' : PyStr) :
    jGet ((k1, v1) :: rest) k' = if k1 = k' then some v1 else jGet rest k' := by
  by_cases h : k1 = k' <;> simp [jGet, List.find?, h]

theorem jGet_mapSet_self (o : JObj) (k : PyStr) (v : JVal) :
    jGet (o.map (fun p => if p.1 = k then (p.1, v) else p)) k =
      (jGet o k).map (fun _ => v) := by
  induction o with
  | nil => rfl
  | cons q rest ih =>
    obtain ⟨k1, v1⟩ := q
    simp only [List.map_cons]
    by_cases hqk : k1 = k
    · rw [if_pos hqk]
      rw [jGet_cons, if_pos hqk, jGet_cons, if_pos hqk]
      rfl
    · rw [if_neg hqk]
      rw [jGet_cons, if_neg hqk, jGet_cons, if_neg hqk]
      exact ih

theorem jGet_mapSet_other (o : JObj) (k : PyStr) (v : JVal) (k' : PyStr) (h : k' ≠ k) :
    jGet (o.map (fun p => if p.1 = k then (p.1, v) else p)) k' = jGet o k' := by
  induction o with
  | nil => rfl
  | cons q rest ih =>
    obtain ⟨k1, v1⟩ := q
    simp only [List.map_cons]
    by_cases hqk : k1 = k
    · have hq' : ¬k1 = k' := fun he => h (he ▸ hqk ▸ rfl)
      rw [if_pos hqk, jGet_cons, if_neg (hqk ▸ hq'), jGet_cons, if_neg hq']
      exact ih
    · rw [if_neg hqk, jGet_cons, jGet_cons]
      by_cases hq' : k1 = k'
      · rw [if_pos hq', if_pos hq']
      · rw [if_neg hq', if_neg hq']
        exact ih

theorem jGet_dictSet_self (o : JObj) (k : PyStr) (v : JVal) :
    jGet (dictSet o k v) k = some v := by
  rw [dictSet]
  split_ifs with h
  · obtain ⟨w, hw⟩ := Option.isSome_iff_exists.mp h
    rw [jGet_mapSet_self, hw]
    rfl
  · have hn : jGet o k = none := Option.not_isSome_iff_eq_none.mp h
    rw [jGet_append, hn, jGet_singleton_self]
    rfl

theorem jGet_dictSet_other (o : JObj) (k : PyStr) (v : JVal) (k' : PyStr) (h : k' ≠ k) :
    jGet (dictSet o k v) k' = jGet o k' := by
  rw [dictSet]
  split_ifs with hs
  · exact jGet_mapSet_other o k v k' h
  · rw [jGet_append, jGet_singleton_ne k k' v h]
    cases jGet o k' <;> rfl

theorem jGet_setdefaultNull_self (o : JObj) (k : PyStr) :
    jGet (setdefaultNull o k) k = some ((jGet o k).getD JVal.jnull) := by
  rw [setdefaultNull]
  split_ifs with h
  · obtain ⟨v, hv⟩ := Option.isSome_iff_exists.mp h
    rw [hv]; rfl
  · have hn : jGet o k = none := Option.not_isSome_iff_eq_none.mp h
    rw [jGet_append, hn]
    simp [jGet, List.find?]

theorem jGet_setdefaultNull_other (o : JObj) (k k' : PyStr) (h : k' ≠ k) :
    jGet (setdefaultNull o k) k' = jGet o k' := by
  rw [setdefaultNull]
  split_ifs with hs
  · rfl
  · rw [jGet_append, jGet_singleton_ne k k' _ h]
    cases jGet o k' <;> rfl

theorem jGet_foldl_setdefault_not_mem (ks : List PyStr) (o : JObj) (k' : PyStr)
    (h : k' ∉ ks) :
    jGet (List.foldl setdefaultNull o ks) k' = jGet o k' := by
  induction ks generalizing o with
  | nil => rfl
  | cons k rest ih =>
    rw [List.foldl_cons, ih _ (fun hm => h (List.mem_cons_of_mem _ hm)),
      jGet_setdefaultNull_other o k k' (fun he => h (he ▸ List.mem_cons_self _ _))]

theorem jGet_foldl_setdefault_preserved (ks : List PyStr) (o : JObj) (k' : PyStr)
    (v : JVal) (h : jGet o k' = some v) :
    jGet (List.foldl setdefaultNull o ks) k' = some v := by
  induction ks generalizing o with
  | nil => exact h
  | cons k rest ih =>
    rw [List.foldl_cons]
    apply ih
    by_cases he : k' = k
    · subst he
      rw [jGet_setdefaultNull_self, h]
      rfl
    · rw [jGet_setdefaultNull_other o k k' he, h]

theorem jGet_foldl_setdefault_mem (ks : List PyStr) (o : JObj) (k' : PyStr)
    (h : k' ∈ ks) :
    jGet (List.foldl setdefaultNull o ks) k' = some ((jGet o k').getD JVal.jnull) := by
  induction ks generalizing o with
  | nil => exact absurd h (List.not_mem_nil k')
  | cons k rest ih =>
    rw [List.foldl_cons]
    by_cases he : k' = k
    · subst he
      exact jGet_foldl_setdefault_preserved rest _ k' _ (jGet_setdefaultNull_self o k')
    · have : k' ∈ rest := by
        cases List.mem_cons.mp h with
        | inl hh => exact absurd hh he
        | inr hh => exact hh
      rw [ih _ this, jGet_setdefaultNull_other o k k' he]

/-- C4 counterexample: for input {"sport": "run"} the sport normalizes to
"Run", not "Running" (only the exact word "running" is in the table), and
start_time is left absent rather than set to explicit null (it is missing
from the setdefault list). -/
theorem C4_counterexample :
    (NS.load_json_meta [(pys "sport", JVal.jstr (pys "run"))]).isSome
    ∧ ((NS.load_json_meta [(pys "sport", JVal.jstr (pys "run"))]).bind
        (fun m => jGet m (pys "sport"))) = some (JVal.jstr (pys "Run"))
    ∧ ((NS.load_json_meta [(pys "sport", JVal.jstr (pys "run"))]).bind
        (fun m => jGet m (pys "start_time"))) = none
    ∧ pys "Run" ≠ pys "Running" := by
  refine ⟨by decide, by decide, by decide, by decide⟩

/-- C4 amended: the JSON passthrough normalizes the sport value via
normalize_sport (so "run" becomes "Run"), gives each of the eight keys
duration_s, distance_m, calories, avg_hr, max_hr, elevation_gain_m,
avg_pace_s, cadence an explicit null exactly when the key is missing
(present values pass through unchanged), leaves start_time untouched (a
missing start_time stays absent, it is not defaulted to null), and
produces no coordinate sequence. -/
theorem C4_json_passthrough :
    (∀ (o : JObj) (m : JObj), NS.load_json_meta o = some m →
      (∀ k, k ∈ [pys "duration_s", pys "distance_m", pys "calories", pys "avg_hr",
          pys "max_hr", pys "elevation_gain_m", pys "avg_pace_s", pys "cadence"] →
        jGet m k = some ((jGet o k).getD JVal.jnull))
      ∧ jGet m (pys "start_time") = jGet o (pys "start_time")
      ∧ (∀ s, jGet o (pys "sport") = some (JVal.jstr s) →
          jGet m (pys "sport") = some (JVal.jstr (normalize_sport (some s)))))
    ∧ (∀ (len2d : GpxDoc → ℚ) (fname : PyStr) (o : JObj) (r : NSEntry × List Point),
        NS.extract len2d fname (NSContent.jsonC (some o)) = some r → r.2 = []) := by
  constructor
  · intro o m hload
    have hshape : ∃ v, m = List.foldl setdefaultNull (dictSet o (pys "sport") v)
        [pys "duration_s", pys "distance_m", pys "calories", pys "avg_hr",
         pys "max_hr", pys "elevation_gain_m", pys "avg_pace_s", pys "cadence"] := by
      have hl2 := hload
      cases hsp : jGet o (pys "sport") with
      | none =>
        simp only [NS.load_json_meta, hsp] at hl2
        exact ⟨_, (Option.some.inj hl2).symm⟩
      | some jv =>
        cases jv with
        | jnull =>
          simp only [NS.load_json_meta, hsp] at hl2
          exact ⟨_, (Option.some.inj hl2).symm⟩
        | jstr s =>
          simp only [NS.load_json_meta, hsp] at hl2
          exact ⟨_, (Option.some.inj hl2).symm⟩
        | jnum q =>
          simp only [NS.load_json_meta, hsp] at hl2
          by_cases hq : q = 0
          · rw [if_pos hq] at hl2
            exact ⟨_, (Option.some.inj hl2).symm⟩
          · rw [if_neg hq] at hl2
            exact absurd hl2 (by simp)
    obtain ⟨v, hm⟩ := hshape
    refine ⟨?_, ?_, ?_⟩
    · intro k hk
      subst hm
      fin_cases hk <;>
        rw [jGet_foldl_setdefault_mem _ _ _ (by decide),
          jGet_dictSet_other _ _ _ _ (by decide)]
    · subst hm
      rw [jGet_foldl_setdefault_not_mem _ _ _ (by decide),
        jGet_dictSet_other _ _ _ _ (by decide)]
    · intro s hs
      have hl2 := hload
      simp only [NS.load_json_meta, hs] at hl2
      rw [← Option.some.inj hl2]
      exact jGet_foldl_setdefault_preserved _ _ _ _
        (jGet_dictSet_self o (pys "sport") _)
  · intro len2d fname o r h
    cases hl : NS.load_json_meta o with
    | none => rw [NS.extract, hl] at h; exact absurd h (by simp)
    | some mm =>
      rw [NS.extract, hl] at h
      obtain rfl := Option.some.inj h
      rfl

/-- C4 witness: the passthrough clauses applied at the concrete input
{"sport": "run"} and its computed output. -/
theorem C4_witness :
    jGet [(pys "sport", JVal.jstr (pys "Run")), (pys "duration_s", JVal.jnull),
        (pys "distance_m", JVal.jnull), (pys "calories", JVal.jnull),
        (pys "avg_hr", JVal.jnull), (pys "max_hr", JVal.jnull),
        (pys "elevation_gain_m", JVal.jnull), (pys "avg_pace_s", JVal.jnull),
        (pys "cadence", JVal.jnull)] (pys "duration_s") =
      some ((jGet [(pys "sport", JVal.jstr (pys "run"))] (pys "duration_s")).getD JVal.jnull)
    ∧ jGet [(pys "sport", JVal.jstr (pys "Run")), (pys "duration_s", JVal.jnull),
        (pys "distance_m", JVal.jnull), (pys "calories", JVal.jnull),
        (pys "avg_hr", JVal.jnull), (pys "max_hr", JVal.jnull),
        (pys "elevation_gain_m", JVal.jnull), (pys "avg_pace_s", JVal.jnull),
        (pys "cadence", JVal.jnull)] (pys "start_time") =
      jGet [(pys "sport", JVal.jstr (pys "run"))] (pys "start_time")
    ∧ jGet [(pys "sport", JVal.jstr (pys "Run")), (pys "duration_s", JVal.jnull),
        (pys "distance_m", JVal.jnull), (pys "calories", JVal.jnull),
        (pys "avg_hr", JVal.jnull), (pys "max_hr", JVal.jnull),
        (pys "elevation_gain_m", JVal.jnull), (pys "avg_pace_s", JVal.jnull),
        (pys "cadence", JVal.jnull)] (pys "sport") =
      some (JVal.jstr (normalize_sport (some (pys "run")))) := by
  have h : NS.load_json_meta [(pys "sport", JVal.jstr (pys "run"))] =
      some [(pys "sport", JVal.jstr (pys "Run")), (pys "duration_s", JVal.jnull),
        (pys "distance_m", JVal.jnull), (pys "calories", JVal.jnull),
        (pys "avg_hr", JVal.jnull), (pys "max_hr", JVal.jnull),
        (pys "elevation_gain_m", JVal.jnull), (pys "avg_pace_s", JVal.jnull),
        (pys "cadence", JVal.jnull)] := by decide
  exact ⟨(C4_json_passthrough.1 _ _ h).1 _ (by decide),
    (C4_json_passthrough.1 _ _ h).2.1,
    (C4_json_passthrough.1 _ _ h).2.2 (pys "run") (by decide)⟩

/-- C5 counterexample: preprocess_tcx.py ignores the per-lap average and
maximum heart-rate elements entirely; it aggregates per-trackpoint
samples with integer truncation.  On a document whose single lap reports
AverageHeartRateBpm 100 and MaximumHeartRateBpm 100 but whose trackpoint
samples are 90 and 91, it returns avg_hr 90 (int of 90.5) and max_hr 91,
not the mean of per-lap averages (100) and max of per-lap maxima (100). -/
theorem C5_counterexample :
    (PT.parse_tcx (pys "hr") docHr).1.avg_hr = some 90
    ∧ (PT.parse_tcx (pys "hr") docHr).1.max_hr = some 91
    ∧ meanOfLapAvgs docHr = some 100
    ∧ maxOfLapMaxs docHr = some 100
    ∧ (90 : ℤ) ≠ 100 := by
  refine ⟨by decide, by decide, by decide, by decide, by decide⟩

/-- C5 amended: in normalise_strava.py, avg_hr is the arithmetic mean of
the per-lap averages rounded to 1 decimal (absent when no lap reports
one, or when that mean is 0, a falsiness artifact) and max_hr is the
maximum of the per-lap maxima (absent when no lap reports one); in
preprocess_tcx.py, avg_hr is the integer-truncated mean of the
per-trackpoint heart-rate samples at positioned points and max_hr is
their maximum, both absent when there are no samples. -/
theorem C5_heart_rate_aggregation :
    (∀ (fname : PyStr) (doc : TcxDoc) (m : MetaTG) (pts : List Point),
      NS.parse_tcx fname doc = some (m, pts) →
      m.avg_hr = (meanOfLapAvgs doc).bind (fun a => if a = 0 then none else some (round1 a))
      ∧ m.max_hr = (maxOfLapMaxs doc).map (fun z => (z : ℚ)))
    ∧ (∀ (stem : PyStr) (doc : TcxDoc),
        (PT.parse_tcx stem doc).1.avg_hr =
          (if ptHrs doc = [] then none
           else some (pyInt (((ptHrs doc).map (fun h => (h : ℚ))).sum / (ptHrs doc).length)))
        ∧ (PT.parse_tcx stem doc).1.max_hr = (ptHrs doc).max?
        ∧ ((ptHrs doc = [] → (PT.parse_tcx stem doc).1.avg_hr = none
            ∧ (PT.parse_tcx stem doc).1.max_hr = none))) := by
  constructor
  · intro fname doc m pts h
    have hs := NS_parse_tcx_shape fname doc m pts h
    exact ⟨hs.2.2.2.1, hs.2.2.2.2.1⟩
  · intro stem doc
    refine ⟨rfl, rfl, ?_⟩
    intro hE
    constructor
    · show (if ptHrs doc = [] then none else _) = none
      rw [if_pos hE]
    · show (ptHrs doc).max? = none
      rw [hE]
      rfl

/-- C5 witness: the normalise_strava clause applied at the concrete
document docHr (single lap, average 100, maximum 100), whose parse
result is computed explicitly. -/
theorem C5_witness :
    (⟨pys "hr", pys "Unknown", none, some 0, some 0, some 0, some 100, some 100,
        some 0, none⟩ : MetaTG).avg_hr =
      (meanOfLapAvgs docHr).bind (fun a => if a = 0 then none else some (round1 a))
    ∧ (⟨pys "hr", pys "Unknown", none, some 0, some 0, some 0, some 100, some 100,
        some 0, none⟩ : MetaTG).max_hr =
      (maxOfLapMaxs docHr).map (fun z => (z : ℚ)) := by
  have h : NS.parse_tcx (pys "hr") docHr =
      some (⟨pys "hr", pys "Unknown", none, some 0, some 0, some 0, some 100, some 100,
        some 0, none⟩, [(2, 1), (2, 1)]) := by decide
  exact ⟨(C5_heart_rate_aggregation.1 _ _ _ _ h).1,
    (C5_heart_rate_aggregation.1 _ _ _ _ h).2⟩

/-- C6 counterexample: preprocess_tcx.py does not round the elevation
gain: altitudes [0, 0.26] yield exactly 0.26, not 0.3 (the 1-decimal
rounding of 0.26); normalise_strava.py would round. -/
theorem C6_counterexample :
    (PT.parse_tcx (pys "alt") docAlt).1.elevation_gain_m = some (13/50)
    ∧ round1 (13/50) = 3/10
    ∧ (13/50 : ℚ) ≠ 3/10 := by
  refine ⟨by decide, by decide, by decide⟩

/-- C6 amended: both TCX extractors accumulate only the strictly
positive consecutive altitude deltas, always updating the previous
altitude (the spec-side gainSpec walk), over their respective altitude
streams (normalise_strava: points with Position and Time;
preprocess_tcx: points with Position).  normalise_strava rounds the
total to 1 decimal and always emits it; preprocess_tcx emits the
unrounded total and only when at least two altitude samples exist.
Altitudes [100, 105, 102, 110] give 13.0 (= 5 + 8), not 10, in both. -/
theorem C6_elevation_gain :
    (∀ (fname : PyStr) (doc : TcxDoc) (m : MetaTG) (pts : List Point),
      NS.parse_tcx fname doc = some (m, pts) →
      m.elevation_gain_m = some (round1 (gainSpec none 0 (nsAlts doc))))
    ∧ (∀ (stem : PyStr) (doc : TcxDoc),
        (PT.parse_tcx stem doc).1.elevation_gain_m =
          (if 2 ≤ (ptAlts doc).length then some (gainSpec none 0 (ptAlts doc)) else none))
    ∧ gainSpec none 0 [100, 105, 102, 110] = 13
    ∧ (NS.parse_tcx (pys "g") docGain).map (fun r => r.1.elevation_gain_m) = some (some 13)
    ∧ (PT.parse_tcx (pys "g") docGain).1.elevation_gain_m = some 13 := by
  refine ⟨?_, ?_, by decide, by decide, by decide⟩
  · intro fname doc m pts h
    exact (NS_parse_tcx_shape fname doc m pts h).2.2.2.2.2.1
  · intro stem doc
    show (if 2 ≤ (ptAlts doc).length then some (posDiffSum (ptAlts doc)) else none) = _
    rw [posDiffSum_eq_gainSpec]

/-- C6 witness: the normalise_strava clause applied at the concrete
document with altitudes [100, 105, 102, 110]. -/
theorem C6_witness :
    (⟨pys "g", pys "Unknown", none, some 0, some 0, some 0, none, none, some 13,
        none⟩ : MetaTG).elevation_gain_m =
      some (round1 (gainSpec none 0 (nsAlts docGain))) := by
  have h : NS.parse_tcx (pys "g") docGain =
      some (⟨pys "g", pys "Unknown", none, some 0, some 0, some 0, none, none, some 13,
        none⟩, [(2, 1), (2, 1), (2, 1), (2, 1)]) := by decide
  exact C6_elevation_gain.1 _ _ _ _ h

/-- C7 counterexample: preprocess_tcx.py does not round the pace.
Duration 100 s over 3000 m yields exactly 100/3 seconds per km, not the
1-decimal 33.3. -/
theorem C7_counterexample :
    (PT.parse_tcx (pys "p") docPaceThird).1.avg_pace_s = some (100/3)
    ∧ round1 (100/3) = 333/10
    ∧ (100/3 : ℚ) ≠ 333/10 := by
  refine ⟨by decide, by decide, by decide⟩

/-- C7 amended: avg_pace_s equals duration / (distance / 1000).  In
normalise_strava's TCX extractor the value is rounded to 1 decimal and
is absent when distance = 0 OR duration = 0 (a computed pace of 0 is
falsy and becomes None); in preprocess_tcx it is the unrounded value,
present exactly when distance > 0.  Duration 3600 s over 10000 m gives
360.0 in both; distance 0 gives absent. -/
theorem C7_average_pace :
    (∀ (fname : PyStr) (doc : TcxDoc) (m : MetaTG) (pts : List Point),
      NS.parse_tcx fname doc = some (m, pts) →
      ∀ t d, m.duration_s = some t → m.distance_m = some d →
        m.avg_pace_s = if d = 0 ∨ t = 0 then none else some (round1 (t / (d / 1000))))
    ∧ (∀ (stem : PyStr) (doc : TcxDoc),
        (PT.parse_tcx stem doc).1.avg_pace_s =
          (if 0 < (PT.parse_tcx stem doc).1.distance_m
           then some ((PT.parse_tcx stem doc).1.duration_s /
             ((PT.parse_tcx stem doc).1.distance_m / 1000))
           else none))
    ∧ (NS.parse_tcx (pys "p") docPace360).map (fun r => r.1.avg_pace_s) = some (some 360)
    ∧ (PT.parse_tcx (pys "p") docPace360).1.avg_pace_s = some 360
    ∧ (NS.parse_tcx (pys "z")
        ⟨some none, [{ emptyLap with totalTimeSeconds := some 3600 }]⟩).map
        (fun r => r.1.avg_pace_s) = some none
    ∧ (PT.parse_tcx (pys "z")
        ⟨some none, [{ emptyLap with totalTimeSeconds := some 3600 }]⟩).1.avg_pace_s
        = none := by
  refine ⟨?_, ?_, by decide, by decide, by decide, by decide⟩
  · intro fname doc m pts h t d ht hd
    have hs := NS_parse_tcx_shape fname doc m pts h
    rw [hs.1] at ht
    rw [hs.2.1] at hd
    obtain rfl := Option.some.inj ht
    obtain rfl := Option.some.inj hd
    exact hs.2.2.2.2.2.2
  · intro stem doc
    rfl

/-- C7 witness: the normalise_strava clause applied at the concrete
3600 s / 10000 m document. -/
theorem C7_witness :
    (⟨pys "p", pys "Unknown", none, some 3600, some 10000, some 0, none, none,
        some 0, some 360⟩ : MetaTG).avg_pace_s =
      (if (10000 : ℚ) = 0 ∨ (3600 : ℚ) = 0 then none
       else some (round1 (3600 / (10000 / 1000)))) := by
  have h : NS.parse_tcx (pys "p") docPace360 =
      some (⟨pys "p", pys "Unknown", none, some 3600, some 10000, some 0, none, none,
        some 0, some 360⟩, []) := by decide
  exact C7_average_pace.1 _ _ _ _ h 3600 10000 rfl rfl

/-- C3 counterexample: a TCX document whose single lap reports nothing
at all still yields duration_s = 0, distance_m = 0, calories = 0 and
elevation_gain_m = 0.0 in normalise_strava.py — values that the source
never reported are coerced to 0 instead of being absent. -/
theorem C3_counterexample :
    docNothing.laps = [emptyLap]
    ∧ emptyLap.totalTimeSeconds = none
    ∧ emptyLap.distanceMeters = none
    ∧ emptyLap.calories = none
    ∧ emptyLap.trackpoints = []
    ∧ (NS.parse_tcx (pys "n") docNothing).map
        (fun r => (r.1.duration_s, r.1.distance_m, r.1.calories, r.1.elevation_gain_m)) =
      some (some 0, some 0, some 0, some 0) := by
  refine ⟨by decide, by decide, by decide, by decide, by decide, by decide⟩

/-- C3 amended: heart-rate fields respect absence — avg_hr and max_hr
are absent when no lap (normalise_strava) or no positioned sample
(preprocess_tcx) reports a value, and preprocess_tcx leaves
elevation_gain_m and cadence absent without data — but duration_s,
distance_m and calories are always-present per-lap sums that default a
missing value to 0, and normalise_strava's elevation_gain_m is always
present (0.0 when no altitude data). -/
theorem C3_absence_vs_zero :
    (∀ (fname : PyStr) (doc : TcxDoc) (m : MetaTG) (pts : List Point),
      NS.parse_tcx fname doc = some (m, pts) →
      m.duration_s.isSome ∧ m.distance_m.isSome ∧ m.calories.isSome
      ∧ m.elevation_gain_m.isSome
      ∧ (doc.laps.filterMap Lap.avgHr = [] → m.avg_hr = none)
      ∧ (m.max_hr = none ↔ doc.laps.filterMap Lap.maxHr = []))
    ∧ (∀ (stem : PyStr) (doc : TcxDoc),
        (ptHrs doc = [] → (PT.parse_tcx stem doc).1.avg_hr = none)
        ∧ ((PT.parse_tcx stem doc).1.max_hr = none ↔ ptHrs doc = [])
        ∧ ((ptAlts doc).length < 2 → (PT.parse_tcx stem doc).1.elevation_gain_m = none)
        ∧ (doc.laps.flatMap PT.lapCads = [] → (PT.parse_tcx stem doc).1.cadence = none)) := by
  constructor
  · intro fname doc m pts h
    have hs := NS_parse_tcx_shape fname doc m pts h
    refine ⟨by rw [hs.1]; rfl, by rw [hs.2.1]; rfl, by rw [hs.2.2.1]; rfl,
      by rw [hs.2.2.2.2.2.1]; rfl, ?_, ?_⟩
    · intro hE
      rw [hs.2.2.2.1]
      simp only [meanOfLapAvgs]
      rw [if_pos hE]
      rfl
    · rw [hs.2.2.2.2.1, maxOfLapMaxs]
      cases hmax : (doc.laps.filterMap Lap.maxHr).max? with
      | none => simp [hmax, List.max?_eq_none_iff.mp hmax]
      | some z =>
        constructor
        · intro hcontra
          exact absurd hcontra (by simp)
        · intro hE
          rw [hE] at hmax
          exact absurd hmax (by simp)
  · intro stem doc
    refine ⟨?_, ?_, ?_, ?_⟩
    · intro hE
      show (if ptHrs doc = [] then none else _) = none
      rw [if_pos hE]
    · show (ptHrs doc).max? = none ↔ _
      exact List.max?_eq_none_iff
    · intro hlen
      show (if 2 ≤ (ptAlts doc).length then some (posDiffSum (ptAlts doc)) else none) = none
      rw [if_neg (by omega)]
    · intro hE
      show (if doc.laps.flatMap PT.lapCads = [] then none else _) = none
      rw [if_pos hE]

/-- C3 witness: the normalise_strava clauses applied at the concrete
nothing-reported document. -/
theorem C3_witness :
    (⟨pys "n", pys "Unknown", none, some 0, some 0, some 0, none, none, some 0,
        none⟩ : MetaTG).duration_s.isSome
    ∧ (⟨pys "n", pys "Unknown", none, some 0, some 0, some 0, none, none, some 0,
        none⟩ : MetaTG).avg_hr = none := by
  have h : NS.parse_tcx (pys "n") docNothing =
      some (⟨pys "n", pys "Unknown", none, some 0, some 0, some 0, none, none, some 0,
        none⟩, []) := by decide
  exact ⟨(C3_absence_vs_zero.1 _ _ _ _ h).1,
    (C3_absence_vs_zero.1 _ _ _ _ h).2.2.2.2.1 (by decide)⟩

/-- C1 counterexample: a file that parses successfully but has exactly
one coordinate contributes NO record to preprocess_tcx.py's metadata
index — the batch skips it entirely (index and features both empty). -/
theorem C1_counterexample :
    PT.build [(pys "one", some docOnePoint)] = some ([], [])
    ∧ (PT.parse_tcx (pys "one") docOnePoint).2.length = 1 := by
  refine ⟨by decide, by decide⟩

/-- C1 amended: in normalise_strava.py every successfully extracted file
contributes exactly one record to the metadata index regardless of its
geometry, and a feature exactly when its point list is non-empty; in
preprocess_tcx.py a successfully parsed file contributes a record (and a
feature) only when it has at least 2 coordinates — below that threshold
it is dropped from the metadata index as well, not only from the
geometry collection. -/
theorem C1_per_file_record_policy :
    (∀ (len2d : GpxDoc → ℚ) (files : List (PyStr × NSContent)),
      (NS.runBatch len2d files).index =
        files.filterMap (fun fc => (NS.extract len2d fc.1 fc.2).map Prod.fst)
      ∧ (NS.runBatch len2d files).features =
        files.filterMap (fun fc => (NS.extract len2d fc.1 fc.2).bind
          (fun r => if r.2 = [] then none else some ⟨r.2, r.1⟩)))
    ∧ (∀ (files : List (PyStr × Option TcxDoc)) (feats : List PTFeature)
        (idx : List PTMeta), PT.build files = some (feats, idx) →
        idx = files.filterMap (fun fd =>
          match fd.2 with
          | some d =>
            if (PT.parse_tcx fd.1 d).2.length < 2 then none
            else some (PT.parse_tcx fd.1 d).1
          | none => none)) :=
  ⟨fun len2d files => ⟨runBatch_index len2d files, runBatch_features len2d files⟩,
   PT_build_index⟩

/-- C1 witness: the preprocess_tcx clause applied at the concrete
single-file batch whose only record has one coordinate. -/
theorem C1_witness :
    ([] : List PTMeta) =
      [(pys "one", (some docOnePoint : Option TcxDoc))].filterMap
        (fun fd => match fd.2 with
          | some d =>
            if (PT.parse_tcx fd.1 d).2.length < 2 then none
            else some (PT.parse_tcx fd.1 d).1
          | none => none) :=
  C1_per_file_record_policy.2 [(pys "one", some docOnePoint)] [] [] (by decide)

/-- C2 counterexample: preprocess_tcx.py has no try/except — a single
malformed file makes the whole run raise before anything is written, so
neither artifact is produced, although the same well-formed neighbour
alone yields both artifacts. -/
theorem C2_counterexample :
    PT.build [(pys "bad", none), (pys "good", some docGain)] = none
    ∧ PT.build [(pys "good", some docGain)] =
      some ([⟨[(2, 1), (2, 1), (2, 1), (2, 1)], pys "good"⟩],
        [⟨pys "good", none, pys "Other", 0, 0, none, none, none, some 13, none, 0⟩]) := by
  refine ⟨by decide, by decide⟩

/-- C2 amended: in normalise_strava.py a single file's extraction
failure is caught, its filename is recorded in the failure diagnostics,
and the rest of the batch is processed exactly as if the failing file
were absent — both output artifacts are still produced (the loop is
total).  In preprocess_tcx.py the opposite holds: the run aborts (and
writes nothing) exactly when some file fails to parse. -/
theorem C2_fault_isolation :
    (∀ (len2d : GpxDoc → ℚ) (pre post : List (PyStr × NSContent)) (fname : PyStr)
        (c : NSContent), NS.extract len2d fname c = none → c ≠ NSContent.otherC →
      NS.runBatch len2d (pre ++ (fname, c) :: post) =
        ⟨(NS.runBatch len2d pre).index ++ (NS.runBatch len2d post).index,
         (NS.runBatch len2d pre).features ++ (NS.runBatch len2d post).features,
         (NS.runBatch len2d pre).failures ++ fname :: (NS.runBatch len2d post).failures⟩)
    ∧ (∀ files : List (PyStr × Option TcxDoc),
        PT.build files = none ↔ ∃ p ∈ files, p.2 = none) := by
  constructor
  · intro len2d pre post fname c hx hc
    rw [runBatch_append, runBatch_cons_not_other len2d fname c post hc, hx]
  · exact PT_build_eq_none_iff

/-- C2 witness: the fault-isolation clause applied at a concrete batch
of one good TCX file followed by one malformed TCX file. -/
theorem C2_witness :
    NS.runBatch (fun _ => 0)
        ([(pys "ok.tcx", NSContent.tcxC (some docGain))] ++
          (pys "bad.tcx", NSContent.tcxC none) :: []) =
      ⟨(NS.runBatch (fun _ => 0) [(pys "ok.tcx", NSContent.tcxC (some docGain))]).index ++
         (NS.runBatch (fun _ => 0) ([] : List (PyStr × NSContent))).index,
       (NS.runBatch (fun _ => 0) [(pys "ok.tcx", NSContent.tcxC (some docGain))]).features ++
         (NS.runBatch (fun _ => 0) ([] : List (PyStr × NSContent))).features,
       (NS.runBatch (fun _ => 0) [(pys "ok.tcx", NSContent.tcxC (some docGain))]).failures ++
         pys "bad.tcx" :: (NS.runBatch (fun _ => 0) ([] : List (PyStr × NSContent))).failures⟩ :=
  C2_fault_isolation.1 (fun _ => 0) [(pys "ok.tcx", NSContent.tcxC (some docGain))] []
    (pys "bad.tcx") (NSContent.tcxC none) (by decide) (by decide)
